import Mathlib

/-!
# pdf_viewer: a verification development of `main.go`

The program is a small HTTP relay.  `viewPdfHandler` renders an HTML page that embeds a
PDF viewer, `proxyFileHandler` fetches a remote file and streams it back,
`loggerMiddleware` wraps both with two log lines, and `main` resolves the listening port.

The embedding is shallow.  Go strings are byte sequences, so they are lists of bytes
(`GoString`).  The handlers are functions from the state of one request (response writer,
emitted log entries, outbound fetches) to the state after the handler returned.  The
standard-library functions the handlers call (`net/url`, `html/template`, `net/http`) are
modelled next to them, function by function, under the names they have in Go.
-/

namespace PdfViewer

/-! ## Go strings -/

/-- A Go string: a finite sequence of bytes. -/
abbrev GoString := List Nat

/-- The bytes of an ASCII literal. -/
def ascii (s : String) : GoString := s.toList.map Char.toNat

/-- Model of `strings.Cut(s, sep)` for a one-byte separator: the text before the first
`sep`, the text after it, and whether `sep` was found. -/
def cut (sep : Nat) : GoString → GoString × GoString × Bool
  | [] => ([], [], false)
  | c :: s =>
    if c = sep then ([], s, true)
    else
      let r := cut sep s
      (c :: r.1, r.2.1, r.2.2)

/-- Model of `strings.HasPrefix`. -/
def hasPrefix : GoString → GoString → Bool
  | _, [] => true
  | [], _ :: _ => false
  | c :: s, p :: ps => c == p && hasPrefix s ps

/-- Model of `strings.HasSuffix`. -/
def hasSuffix (s suffix : GoString) : Bool := hasPrefix s.reverse suffix.reverse

/-- Model of `strings.Contains(s, string(c))` / `strings.IndexByte(s, c) >= 0`. -/
def containsByte (s : GoString) (c : Nat) : Bool := s.any (fun x => x == c)

/-- Model of `strings.Count(s, string(c))` for a one-byte pattern. -/
def countByte (s : GoString) (c : Nat) : Nat := s.countP (fun x => x == c)

/-- Model of `strings.Index(s, sub)`: the offset of the first occurrence of `sub`. -/
def index (sub : GoString) : GoString → Option Nat
  | [] => if sub = [] then some 0 else none
  | c :: s =>
    if hasPrefix (c :: s) sub then some 0
    else (index sub s).map (fun i => i + 1)

/-- Model of `strings.LastIndex(s, string(c))` for a one-byte pattern. -/
def lastIndexByte (c : Nat) : GoString → Option Nat
  | [] => none
  | x :: s =>
    match lastIndexByte c s with
    | some i => some (i + 1)
    | none => if x = c then some 0 else none

/-- Model of `strings.ToLower` on ASCII text: `A`..`Z` become `a`..`z`, every other byte is
kept.  The program lowers only URL schemes, which `getScheme` restricts to ASCII. -/
def toLower (s : GoString) : GoString :=
  s.map (fun c => if 65 ≤ c ∧ c ≤ 90 then c + 32 else c)

/-! ## `net/url` -/

/-- The escaping modes of `net/url` (`encoding`). -/
inductive Encoding
  | encodePath
  | encodePathSegment
  | encodeHost
  | encodeZone
  | encodeUserPassword
  | encodeQueryComponent
  | encodeFragment
  deriving DecidableEq, Repr

/-- The errors `net/url` reports while parsing; each carries the text Go quotes in its
message. -/
inductive UrlError
  | invalidControlCharacter
  | emptyUrl
  | missingProtocolScheme
  | invalidURIForRequest
  | firstPathSegmentColon
  | missingBracket
  | invalidPort (port : GoString)
  | invalidUserinfo
  | escapeError (s : GoString)
  | invalidHostError (s : GoString)
  | invalidSemicolonSeparator
  deriving DecidableEq, Repr

/-- Model of `url.Userinfo`. -/
structure Userinfo where
  username : GoString
  password : GoString := []
  passwordSet : Bool := false
  deriving DecidableEq, Repr

/-- Model of `url.URL`. -/
structure URL where
  Scheme : GoString := []
  Opaque : GoString := []
  User : Option Userinfo := none
  Host : GoString := []
  Path : GoString := []
  RawPath : GoString := []
  OmitHost : Bool := false
  ForceQuery : Bool := false
  RawQuery : GoString := []
  Fragment : GoString := []
  RawFragment : GoString := []
  deriving DecidableEq, Repr

/-- Model of `ishex`. -/
def ishex (c : Nat) : Bool :=
  (48 ≤ c && c ≤ 57) || (97 ≤ c && c ≤ 102) || (65 ≤ c && c ≤ 70)

/-- Model of `unhex`. -/
def unhex (c : Nat) : Nat :=
  if 48 ≤ c ∧ c ≤ 57 then c - 48
  else if 97 ≤ c ∧ c ≤ 102 then c - 97 + 10
  else if 65 ≤ c ∧ c ≤ 70 then c - 65 + 10
  else 0

/-- Model of `shouldEscape(c, mode)`. -/
def shouldEscape (c : Nat) (mode : Encoding) : Bool :=
  -- unreserved characters (alphanum)
  if (97 ≤ c ∧ c ≤ 122) ∨ (65 ≤ c ∧ c ≤ 90) ∨ (48 ≤ c ∧ c ≤ 57) then false
  else if (mode = .encodeHost ∨ mode = .encodeZone) ∧
      c ∈ [33, 36, 38, 39, 40, 41, 42, 43, 44, 59, 61, 58, 91, 93, 60, 62, 34] then false
  -- '-', '_', '.', '~'
  else if c ∈ [45, 95, 46, 126] then false
  -- '$', '&', '+', ',', '/', ':', ';', '=', '?', '@'
  else if c ∈ [36, 38, 43, 44, 47, 58, 59, 61, 63, 64] then
    match mode with
    | .encodePath => c == 63
    | .encodePathSegment => c == 47 || c == 59 || c == 44 || c == 63
    | .encodeUserPassword => c == 64 || c == 47 || c == 63 || c == 58
    | .encodeQueryComponent => true
    | .encodeFragment => false
    | _ => true
  -- '!', '(', ')', '*'
  else if mode = .encodeFragment ∧ c ∈ [33, 40, 41, 42] then false
  else true

/-- Model of `unescape(s, mode)`.  Go checks the whole string first and decodes in a second
pass; the first error by position is the one reported, as here. -/
def unescape : GoString → Encoding → Except UrlError GoString
  | [], _ => .ok []
  | 37 :: a :: b :: s, mode =>
    if !(ishex a && ishex b) then .error (.escapeError [37, a, b])
    else if mode = .encodeHost ∧ unhex a < 8 ∧ [37, a, b] ≠ [37, 50, 53] then
      .error (.escapeError [37, a, b])
    else if mode = .encodeZone ∧ [37, a, b] ≠ [37, 50, 53] ∧ unhex a * 16 + unhex b ≠ 32 ∧
        shouldEscape (unhex a * 16 + unhex b) .encodeHost then
      .error (.escapeError [37, a, b])
    else
      match unescape s mode with
      | .error e => .error e
      | .ok t => .ok ((unhex a * 16 + unhex b) :: t)
  | [37], _ => .error (.escapeError [37])
  | [37, a], _ => .error (.escapeError [37, a])
  | c :: s, mode =>
    if c = 43 then
      match unescape s mode with
      | .error e => .error e
      | .ok t => .ok ((if mode = .encodeQueryComponent then 32 else 43) :: t)
    else if (mode = .encodeHost ∨ mode = .encodeZone) ∧ c < 128 ∧ shouldEscape c .encodeHost then
      .error (.invalidHostError [c])
    else
      match unescape s mode with
      | .error e => .error e
      | .ok t => .ok (c :: t)

/-- The table `upperhex`. -/
def upperhex (n : Nat) : Nat := if n % 16 < 10 then 48 + n % 16 else 65 + (n % 16 - 10)

/-- Model of `escape(s, mode)`. -/
def escape (s : GoString) (mode : Encoding) : GoString :=
  s.flatMap (fun c =>
    if c = 32 ∧ mode = .encodeQueryComponent then [43]
    else if shouldEscape c mode then [37, upperhex (c / 16), upperhex c]
    else [c])

/-- Model of `QueryUnescape`. -/
def QueryUnescape (s : GoString) : Except UrlError GoString := unescape s .encodeQueryComponent

/-- Model of `stringContainsCTLByte`. -/
def stringContainsCTLByte (s : GoString) : Bool := s.any (fun b => b < 32 || b == 127)

/-- The loop of `getScheme` from position `i > 0`: `acc` holds the bytes already passed
(in reverse), `raw` the whole input. -/
def getSchemeLoop (raw : GoString) : GoString → GoString → GoString × GoString
  | _, [] => ([], raw)
  | acc, c :: s =>
    if (97 ≤ c ∧ c ≤ 122) ∨ (65 ≤ c ∧ c ≤ 90) then getSchemeLoop raw (c :: acc) s
    else if (48 ≤ c ∧ c ≤ 57) ∨ c = 43 ∨ c = 45 ∨ c = 46 then getSchemeLoop raw (c :: acc) s
    else if c = 58 then (acc.reverse, s)
    else ([], raw)

/-- Model of `getScheme(rawURL)`: the scheme and the rest after the colon, or no scheme and
the whole input. -/
def getScheme (rawURL : GoString) : Except UrlError (GoString × GoString) :=
  match rawURL with
  | [] => .ok ([], rawURL)
  | c :: s =>
    if (97 ≤ c ∧ c ≤ 122) ∨ (65 ≤ c ∧ c ≤ 90) then .ok (getSchemeLoop rawURL [c] s)
    else if (48 ≤ c ∧ c ≤ 57) ∨ c = 43 ∨ c = 45 ∨ c = 46 then .ok ([], rawURL)
    else if c = 58 then .error .missingProtocolScheme
    else .ok ([], rawURL)

/-- Model of `validOptionalPort`. -/
def validOptionalPort (port : GoString) : Bool :=
  match port with
  | [] => true
  | c :: s => c == 58 && s.all (fun b => 48 ≤ b && b ≤ 57)

/-- Model of `validUserinfo`. -/
def validUserinfo (s : GoString) : Bool :=
  s.all (fun r =>
    (65 ≤ r && r ≤ 90) || (97 ≤ r && r ≤ 122) || (48 ≤ r && r ≤ 57) ||
    -- '-', '.', '_', ':', '~', '!', '$', '&', '\'', '(', ')', '*', '+', ',', ';', '=', '%', '@'
    [45, 46, 95, 58, 126, 33, 36, 38, 39, 40, 41, 42, 43, 44, 59, 61, 37, 64].contains r)

/-- Model of `parseHost`. -/
def parseHost (host : GoString) : Except UrlError GoString :=
  if hasPrefix host [91] then
    match lastIndexByte 93 host with
    | none => .error .missingBracket
    | some i =>
      let colonPort := host.drop (i + 1)
      if !validOptionalPort colonPort then .error (.invalidPort colonPort)
      else
        match index [37, 50, 53] (host.take i) with
        | some zone =>
          match unescape (host.take zone) .encodeHost with
          | .error e => .error e
          | .ok host1 =>
            match unescape ((host.take i).drop zone) .encodeZone with
            | .error e => .error e
            | .ok host2 =>
              match unescape (host.drop i) .encodeHost with
              | .error e => .error e
              | .ok host3 => .ok (host1 ++ host2 ++ host3)
        | none => unescape host .encodeHost
  else
    match lastIndexByte 58 host with
    | some i =>
      let colonPort := host.drop i
      if !validOptionalPort colonPort then .error (.invalidPort colonPort)
      else unescape host .encodeHost
    | none => unescape host .encodeHost

/-- Model of `parseAuthority`. -/
def parseAuthority (authority : GoString) : Except UrlError (Option Userinfo × GoString) :=
  match lastIndexByte 64 authority with
  | none =>
    match parseHost authority with
    | .error e => .error e
    | .ok host => .ok (none, host)
  | some i =>
    match parseHost (authority.drop (i + 1)) with
    | .error e => .error e
    | .ok host =>
      let userinfo := authority.take i
      if !validUserinfo userinfo then .error .invalidUserinfo
      else if !containsByte userinfo 58 then
        match unescape userinfo .encodeUserPassword with
        | .error e => .error e
        | .ok username => .ok (some { username := username }, host)
      else
        let c := cut 58 userinfo
        match unescape c.1 .encodeUserPassword with
        | .error e => .error e
        | .ok username =>
          match unescape c.2.1 .encodeUserPassword with
          | .error e => .error e
          | .ok password =>
            .ok (some { username := username, password := password, passwordSet := true }, host)

/-- Model of `(*URL).setPath`. -/
def URL.setPath (u : URL) (p : GoString) : Except UrlError URL :=
  match unescape p .encodePath with
  | .error e => .error e
  | .ok path =>
    .ok { u with Path := path, RawPath := if p = escape path .encodePath then [] else p }

/-- Model of `(*URL).setFragment`. -/
def URL.setFragment (u : URL) (f : GoString) : Except UrlError URL :=
  match unescape f .encodeFragment with
  | .error e => .error e
  | .ok frag =>
    .ok { u with Fragment := frag,
                 RawFragment := if f = escape frag .encodeFragment then [] else f }

/-- The second half of `parse`: authority and path, once scheme and query are split off. -/
def parseAuthorityAndPath (url : URL) (rest : GoString) (viaRequest : Bool) :
    Except UrlError URL :=
  if (url.Scheme ≠ [] ∨ (!viaRequest ∧ !hasPrefix rest [47, 47, 47])) ∧
      hasPrefix rest [47, 47] then
    let authority0 := rest.drop 2
    let c := cut 47 authority0
    let authority := c.1
    let rest1 := if c.2.2 then 47 :: c.2.1 else []
    match parseAuthority authority with
    | .error e => .error e
    | .ok (user, host) => URL.setPath { url with User := user, Host := host } rest1
  else if url.Scheme ≠ [] ∧ hasPrefix rest [47] then
    URL.setPath { url with OmitHost := true } rest
  else
    URL.setPath url rest

/-- Model of `parse(rawURL, viaRequest)`. -/
def parse (rawURL : GoString) (viaRequest : Bool) : Except UrlError URL :=
  if stringContainsCTLByte rawURL then .error .invalidControlCharacter
  else if rawURL = [] ∧ viaRequest then .error .emptyUrl
  else if rawURL = [42] then .ok { Path := [42] }
  else
    match getScheme rawURL with
    | .error e => .error e
    | .ok (scheme0, rest0) =>
      let scheme := toLower scheme0
      let forceQuery := hasSuffix rest0 [63] && countByte rest0 63 == 1
      let rest := if forceQuery then rest0.dropLast else (cut 63 rest0).1
      let rawQuery := if forceQuery then [] else (cut 63 rest0).2.1
      let url : URL := { Scheme := scheme, ForceQuery := forceQuery, RawQuery := rawQuery }
      if !hasPrefix rest [47] then
        if scheme ≠ [] then
          -- rootless paths are opaque
          .ok { url with Opaque := rest }
        else if viaRequest then .error .invalidURIForRequest
        else if containsByte (cut 47 rest).1 58 then .error .firstPathSegmentColon
        else parseAuthorityAndPath url rest viaRequest
      else parseAuthorityAndPath url rest viaRequest

/-- Model of `url.Parse(rawURL)`. -/
def Parse (rawURL : GoString) : Except UrlError URL :=
  let c := cut 35 rawURL
  match parse c.1 false with
  | .error e => .error e
  | .ok url => if c.2.1 = [] then .ok url else url.setFragment c.2.1

/-- Model of `url.ParseRequestURI(rawURL)`. -/
def ParseRequestURI (rawURL : GoString) : Except UrlError URL := parse rawURL true

/-- Model of `(*URL).IsAbs`. -/
def URL.IsAbs (u : URL) : Bool := u.Scheme != []

/-- Equality of results is decidable, so that parses can be compared by evaluation. -/
instance instDecidableEqExcept {ε α : Type} [DecidableEq ε] [DecidableEq α] :
    DecidableEq (Except ε α)
  | .ok a, .ok b => if h : a = b then isTrue (by rw [h]) else isFalse (by simp [h])
  | .error a, .error b => if h : a = b then isTrue (by rw [h]) else isFalse (by simp [h])
  | .ok _, .error _ => isFalse (by simp)
  | .error _, .ok _ => isFalse (by simp)

/-- Model of `(*Userinfo).String`. -/
def Userinfo.String (u : Userinfo) : GoString :=
  escape u.username .encodeUserPassword ++
    (if u.passwordSet then 58 :: escape u.password .encodeUserPassword else [])

/-- Model of `validEncoded(s, mode)`. -/
def validEncoded (s : GoString) (mode : Encoding) : Bool :=
  s.all (fun c =>
    -- '!', '$', '&', '\'', '(', ')', '*', '+', ',', ';', '=', ':', '@', '[', ']', '%'
    [33, 36, 38, 39, 40, 41, 42, 43, 44, 59, 61, 58, 64, 91, 93, 37].contains c ||
      !shouldEscape c mode)

/-- Model of `(*URL).EscapedPath`. -/
def URL.EscapedPath (u : URL) : GoString :=
  if u.RawPath ≠ [] ∧ validEncoded u.RawPath .encodePath ∧
      unescape u.RawPath .encodePath = .ok u.Path then u.RawPath
  else if u.Path = [42] then [42]
  else escape u.Path .encodePath

/-- Model of `(*URL).EscapedFragment`. -/
def URL.EscapedFragment (u : URL) : GoString :=
  if u.RawFragment ≠ [] ∧ validEncoded u.RawFragment .encodeFragment ∧
      unescape u.RawFragment .encodeFragment = .ok u.Fragment then u.RawFragment
  else escape u.Fragment .encodeFragment

/-- The part of `(*URL).String` written when `Opaque` is empty: authority and path. -/
def URL.hierPart (u : URL) : GoString :=
  let auth : GoString :=
    if u.Scheme ≠ [] ∨ u.Host ≠ [] ∨ u.User ≠ none then
      if u.OmitHost ∧ u.Host = [] ∧ u.User = none then []
      else
        (if u.Host ≠ [] ∨ u.Path ≠ [] ∨ u.User ≠ none then [47, 47] else []) ++
        (match u.User with
          | some ui => ui.String ++ [64]
          | none => []) ++
        (if u.Host ≠ [] then escape u.Host .encodeHost else [])
    else []
  let path := u.EscapedPath
  let slash : GoString := if path ≠ [] ∧ path.head? ≠ some 47 ∧ u.Host ≠ [] then [47] else []
  let dot : GoString :=
    if u.Scheme = [] ∧ auth = [] ∧ slash = [] ∧ containsByte (cut 47 path).1 58 then [46, 47]
    else []
  auth ++ slash ++ dot ++ path

/-- Model of `(*URL).String`. -/
def URL.String (u : URL) : GoString :=
  (if u.Scheme ≠ [] then u.Scheme ++ [58] else []) ++
  (if u.Opaque ≠ [] then u.Opaque else u.hierPart) ++
  (if u.ForceQuery ∨ u.RawQuery ≠ [] then 63 :: u.RawQuery else []) ++
  (if u.Fragment ≠ [] then 35 :: u.EscapedFragment else [])

/-- Model of `url.Values`, a map from keys to value lists, kept as an association list. -/
abbrev Values := List (GoString × List GoString)

/-- Model of `Values.Get`: the first value of the key, or the empty string. -/
def Values.Get (v : Values) (key : GoString) : GoString :=
  match v.lookup key with
  | some (x :: _) => x
  | _ => []

/-- The map update `m[key] = append(m[key], value)`. -/
def Values.add : Values → GoString → GoString → Values
  | [], key, value => [(key, [value])]
  | (k, vs) :: m, key, value =>
    if k = key then (k, vs ++ [value]) :: m else (k, vs) :: Values.add m key value

/-- The pieces `parseQuery` cuts a query into at each ampersand. -/
def splitAmp : GoString → List GoString
  | [] => [[]]
  | c :: s =>
    if c = 38 then [] :: splitAmp s
    else
      match splitAmp s with
      | [] => [[c]]
      | p :: ps => (c :: p) :: ps

/-- One round of the loop of `parseQuery`, on the piece `key`. -/
def parseQueryPiece (m : Values × Option UrlError) (key : GoString) :
    Values × Option UrlError :=
  if containsByte key 59 then (m.1, some .invalidSemicolonSeparator)
  else if key = [] then m
  else
    let c := cut 61 key
    match QueryUnescape c.1 with
    | .error e => (m.1, if m.2 = none then some e else m.2)
    | .ok k =>
      match QueryUnescape c.2.1 with
      | .error e => (m.1, if m.2 = none then some e else m.2)
      | .ok value => (Values.add m.1 k value, m.2)

/-- Model of `url.ParseQuery`: the values parsed, and the error reported if any. -/
def ParseQuery (query : GoString) : Values × Option UrlError :=
  (splitAmp query).foldl parseQueryPiece ([], none)

/-- Model of `(*URL).Query`: the parsed `RawQuery`, malformed pairs dropped. -/
def URL.Query (u : URL) : Values := (ParseQuery u.RawQuery).1

/-! ## `html/template` -/

/-- A parsed template: literal text and field actions. -/
inductive Node
  | text (s : GoString)
  | field (name : GoString)
  deriving DecidableEq, Repr

/-- The ways parsing a template fails in this model. -/
inductive TemplateError
  | unclosedAction
  | unsupportedAction (s : GoString)
  deriving DecidableEq, Repr

/-- A letter or an underscore. -/
def isIdentStart (c : Nat) : Bool := (97 ≤ c && c ≤ 122) || (65 ≤ c && c ≤ 90) || c == 95

/-- The text between the delimiters of an action, read as a field `.Name`. -/
def parseAction (s : GoString) : Except TemplateError Node :=
  let t := (s.dropWhile (fun c => c == 32)).reverse.dropWhile (fun c => c == 32) |>.reverse
  match t with
  | 46 :: c :: name =>
    if isIdentStart c && name.all (fun x => isIdentStart x || (48 ≤ x && x ≤ 57)) then
      .ok (.field (c :: name))
    else .error (.unsupportedAction s)
  | _ => .error (.unsupportedAction s)

/-- The lexer and parser of templates: `cur` holds, in reverse, the bytes read since the
last delimiter, `inAction` says whether an action is open. -/
def parseNodes : GoString → Bool → GoString → Except TemplateError (List Node)
  | [], false, cur => .ok (if cur = [] then [] else [.text cur.reverse])
  | [], true, _ => .error .unclosedAction
  | 123 :: 123 :: s, false, cur =>
    match parseNodes s true [] with
    | .error e => .error e
    | .ok ns => .ok (if cur = [] then ns else .text cur.reverse :: ns)
  | 125 :: 125 :: s, true, cur =>
    match parseAction cur.reverse with
    | .error e => .error e
    | .ok n =>
      match parseNodes s false [] with
      | .error e => .error e
      | .ok ns => .ok (n :: ns)
  | c :: s, inAction, cur => parseNodes s inAction (c :: cur)

/-- Model of `template.New(name).Parse(text)` for the template language this program uses:
literal text and field actions between double braces.  Every other action is reported as an
error; the two templates of the program contain none. -/
def templateParse (text : GoString) : Except TemplateError (List Node) :=
  parseNodes text false []

/-- The table `htmlReplacementTable` of `html/template`. -/
def htmlReplacementTable (c : Nat) : Option GoString :=
  if c = 0 then some [239, 191, 189]
  else if c = 34 then some (ascii "&#34;")
  else if c = 38 then some (ascii "&amp;")
  else if c = 39 then some (ascii "&#39;")
  else if c = 43 then some (ascii "&#43;")
  else if c = 60 then some (ascii "&lt;")
  else if c = 62 then some (ascii "&gt;")
  else none

/-- Model of `htmlReplacer(s, htmlReplacementTable, true)`, the escaper `html/template`
applies to a string both in element text (`htmlEscaper`) and in a quoted attribute
that holds neither a URL, a script nor a style (`attrEscaper`).  Every entry of the table
is a one-byte rune and every other rune is copied, so the function works byte by byte. -/
def htmlReplacer (s : GoString) : GoString :=
  s.flatMap (fun c => (htmlReplacementTable c).getD [c])

/-! ## `net/http` -/

/-- Model of `http.Header` with canonical keys. -/
abbrev Header := List (String × GoString)

/-- Model of `Header.Get`. -/
def Header.Get (h : Header) (key : String) : GoString := (h.lookup key).getD []

/-- Model of `Header.Del`. -/
def Header.Del (h : Header) (key : String) : Header := h.filter (fun kv => kv.1 != key)

/-- Model of `Header.Set`. -/
def Header.Set (h : Header) (key : String) (value : GoString) : Header :=
  Header.Del h key ++ [(key, value)]

/-- Model of `http.ResponseWriter`: the header map the handler edits, the status and headers
committed by the first `WriteHeader`, and the body written so far. -/
structure ResponseWriter where
  header : Header := []
  wroteHeader : Option (Nat × Header) := none
  body : GoString := []
  deriving DecidableEq, Repr

/-- Model of `ResponseWriter.WriteHeader`: the first call commits status and headers, later
calls change nothing. -/
def ResponseWriter.WriteHeader (w : ResponseWriter) (code : Nat) : ResponseWriter :=
  match w.wroteHeader with
  | some _ => w
  | none => { w with wroteHeader := some (code, w.header) }

/-- Model of `ResponseWriter.Write`: commits status 200 when nothing is committed yet, then
appends to the body. -/
def ResponseWriter.Write (w : ResponseWriter) (b : GoString) : ResponseWriter :=
  let w1 := w.WriteHeader 200
  { w1 with body := w1.body ++ b }

/-- What the client receives. -/
structure Response where
  status : Nat
  header : Header
  body : GoString
  deriving DecidableEq, Repr

/-- The response sent once the handler returned; a handler that wrote nothing sends 200. -/
def ResponseWriter.response (w : ResponseWriter) : Response :=
  match w.wroteHeader with
  | some (code, h) => { status := code, header := h, body := w.body }
  | none => { status := 200, header := w.header, body := [] }

/-- Model of `http.Request`, as far as the handlers read it. -/
structure Request where
  Method : GoString
  URL : URL
  deriving DecidableEq, Repr

/-- Model of `http.Response` as returned by `http.Get`: status line, status code, headers,
the body, and the I/O error that interrupts copying it, if any, with the number of bytes
copied before. -/
structure Upstream where
  Status : GoString
  StatusCode : Nat
  Header : Header
  Body : GoString
  copyErr : Option (Nat × GoString) := none
  deriving DecidableEq, Repr

/-- An argument of a log call. -/
inductive LogArg
  | str (s : GoString)
  | urlErr (e : Option UrlError)
  | templateErr (e : TemplateError)
  | duration (d : Nat)
  deriving DecidableEq, Repr

/-- One call of `log.Print` or `log.Printf`: the format and its arguments. -/
structure LogEntry where
  format : String
  args : List LogArg := []
  deriving DecidableEq, Repr

/-- The state of one handler call: the response writer, the log entries the call has emitted
and the URLs it has fetched with `http.Get`, both oldest first. -/
structure State where
  w : ResponseWriter := {}
  logs : List LogEntry := []
  fetches : List GoString := []
  deriving DecidableEq, Repr

/-- A handler (`http.Handler`): called with a request and a response writer, it leaves the
writer changed, log entries and outbound fetches. -/
abbrev Handler := Request → ResponseWriter → State

/-- The response the server sends when `h` handles `r` with a fresh response writer. -/
def serve (h : Handler) (r : Request) : Response := (h r {}).w.response

/-- Model of `log.Printf`. -/
def logPrintf (format : String) (args : List LogArg) (s : State) : State :=
  { s with logs := s.logs ++ [{ format := format, args := args }] }

/-- The statement `w.Header().Set(key, value)`. -/
def headerSet (key : String) (value : GoString) (s : State) : State :=
  { s with w := { s.w with header := Header.Set s.w.header key value } }

/-- Model of `http.Error(w, error, code)`. -/
def httpError (error : GoString) (code : Nat) (s : State) : State :=
  let h := Header.Set (Header.Set (Header.Del s.w.header "Content-Length")
    "Content-Type" (ascii "text/plain; charset=utf-8")) "X-Content-Type-Options" (ascii "nosniff")
  let w := ResponseWriter.WriteHeader { s.w with header := h } code
  { s with w := w.Write (error ++ [10]) }

/-- Execution of the nodes of a template on a struct given by its fields: text is written as
it is, a field through the escaper; a missing field stops the execution. -/
def executeNodes : List Node → List (GoString × GoString) → ResponseWriter → ResponseWriter
  | [], _, w => w
  | .text t :: ns, data, w => executeNodes ns data (w.Write t)
  | .field name :: ns, data, w =>
    match data.lookup name with
    | some v => executeNodes ns data (w.Write (htmlReplacer v))
    | none => w

/-- Model of `(*Template).Execute(w, data)`; the error it returns is ignored by the caller. -/
def execute (t : List Node) (data : List (GoString × GoString)) (s : State) : State :=
  { s with w := executeNodes t data s.w }

/-! ## The program -/

/-- The constant `errorHtml` of `viewPdfHandler`. -/
def errorHtml : GoString :=
  ascii (String.join [
    "<!DOCTYPE html>\n",
    "\t<html>\n",
    "\t<head>\n",
    "\t<title>Something went wrong</title>\n",
    "\t</head>\n",
    "\t<body>\n",
    "\t\t<h1>Error</h1>\n",
    "\t\t<p>\x7b\x7b .Message \x7d\x7d</p>\n",
    "\t</body>\n",
    "\t</html>\n",
    "\t"])
/-- The template text `pdfViewerHtml` of `viewPdfHandler`. -/
def pdfViewerHtml : GoString :=
  ascii (String.join [
    "<!DOCTYPE html>\n",
    "    <html>\n",
    "    <head>\n",
    "\t    <title>PDF Viewer</title>\n",
    "\t    <script src=\"https://cdnjs.cloudflare.com/ajax/libs/jquery/3.6.0/jquery.min.js\"></script>\n",
    "\t    <script src=\"https://cdn.jsdelivr.net/gh/dealfonso/pdfjs-viewer@2.0/dist/pdfjs-viewer.min.js\"></script>\n",
    "\t    <link rel=\"stylesheet\" href=\"https://cdn.jsdelivr.net/gh/dealfonso/pdfjs-viewer@2.0/dist/pdfjs-viewer.min.css\">\n",
    "\t\t<style>\n",
    "\t\tbody \x7b\n",
    "\t\tmargin: 0;\n",
    "\t\t\x7d\n",
    "\t\t</style>\n",
    "    </head>\n",
    "    <body>\n",
    "\t    <script src=\"https://cdnjs.cloudflare.com/ajax/libs/pdf.js/3.11.174/pdf.min.js\"></script>\n",
    "\t    <script>\n",
    "\t    var pdfjsLib = window[\x27pdfjs-dist/build/pdf\x27];\n",
    "\t    pdfjsLib.GlobalWorkerOptions.workerSrc = \x27https://cdnjs.cloudflare.com/ajax/libs/pdf.js/3.11.174/pdf.worker.min.js\x27;\n",
    "\t    </script>\n",
    "\t    <div class=\"pdfjs-viewer\" pdf-document=\"/proxy?url=\x7b\x7b.FileURL\x7d\x7d\" initial-zoom=\"fit\">\n",
    "\t    </div>\n",
    "    </body>\n",
    "    </html>\n",
    "\t"])

/-- Model of `viewPdfHandler`. -/
def viewPdfHandler : Handler := fun r w =>
  let s : State := { w := w }
  match templateParse errorHtml with
  | .error err =>
    httpError (ascii "Something went wrong, try again.") 500
      (logPrintf "ERROR: Failed to parse error template: %s" [.templateErr err] s)
  | .ok errorTempl =>
    let fileURL := r.URL.Query.Get (ascii "url")
    let s := headerSet "Content-Type" (ascii "text/html") s
    if fileURL = [] then
      execute errorTempl [(ascii "Message", ascii "Missing \x27url\x27 query parameter")]
        (logPrintf "ERROR: Failed to parse pdf url, url is empty" [] s)
    else
      let invalid := fun (err : Option UrlError) =>
        execute errorTempl [(ascii "Message", ascii "Invalid url")]
          (logPrintf "ERROR: Failed to parse pdf url, url is invalid: \x27%s\x27, error: %v"
            [.str fileURL, .urlErr err] s)
      match Parse fileURL with
      | .error err => invalid (some err)
      | .ok parsedURL =>
        if !parsedURL.IsAbs then invalid none
        else
          match templateParse pdfViewerHtml with
          | .error err =>
            execute errorTempl [(ascii "Message", ascii "Something went wrong, try again.")]
              (logPrintf "ERROR: Failed to parse pdf template for url: \x27%s\x27, error: %s"
                [.str fileURL, .templateErr err] s)
          | .ok pdfViewerTempl =>
            execute pdfViewerTempl [(ascii "FileURL", parsedURL.String)] s

/-- Model of `io.Copy(w, res.Body)`: the body is written up to the point where copying
fails, or whole. -/
def ioCopy (res : Upstream) (s : State) : State :=
  match res.copyErr with
  | some (n, err) =>
    logPrintf "ERROR: Error streaming file: %v" [.str err]
      { s with w := if res.Body.take n = [] then s.w else s.w.Write (res.Body.take n) }
  | none => { s with w := if res.Body = [] then s.w else s.w.Write res.Body }

/-- Model of `proxyFileHandler`; `httpGet` stands for `http.Get`, which answers with an
upstream response or with the text of a transport error. -/
def proxyFileHandler (httpGet : GoString → Except GoString Upstream) : Handler := fun r w =>
  let s : State := { w := w }
  let fileURL := r.URL.Query.Get (ascii "url")
  if fileURL = [] then
    httpError (ascii "Missing \x27url\x27 query parameter") 400
      (logPrintf "ERROR: Failed to parse pdf url, url is empty" [] s)
  else
    let invalid := fun (err : Option UrlError) =>
      httpError (ascii "Invalid URL") 400
        (logPrintf "ERROR: Failed to parse pdf url, url is invalid: \x27%s\x27, error: %v"
          [.str fileURL, .urlErr err] s)
    match Parse fileURL with
    | .error err => invalid (some err)
    | .ok parsedURL =>
      if !parsedURL.IsAbs then invalid none
      else
        let s := { s with fetches := s.fetches ++ [fileURL] }
        match httpGet fileURL with
        | .error err =>
          httpError (ascii "Failed to fetch the file: " ++ err) 502
            (logPrintf "ERROR: Failed to tetch the file for url \x27%s\x27: %s"
              [.str parsedURL.String, .str err] s)
        | .ok res =>
          if res.StatusCode ≠ 200 then
            httpError (ascii "Failed to fetch the file: " ++ res.Status) 502
              (logPrintf "ERROR: Failed to fetch the file: %s, status: %s"
                [.str parsedURL.String, .str res.Status] s)
          else
            let s := headerSet "Content-Type" (Header.Get res.Header "Content-Type") s
            let s := headerSet "Content-Disposition" (ascii "inline") s
            let s := { s with w := s.w.WriteHeader 200 }
            ioCopy res s

/-- The query string built by the loop of `loggerMiddleware` over the entries of the query
map in the order the iteration yields them: for each key, `fmt.Sprintf("%s %v", k, v)`. -/
def flattenQuery (entries : List (GoString × List GoString)) : GoString :=
  entries.flatMap (fun kv => kv.1 ++ [32] ++ [91] ++ List.intercalate [32] kv.2 ++ [93])

/-- Model of `loggerMiddleware(next)`.  `iter` is the order in which `range` yields the
entries of the query map, `elapsed` the value of `time.Since(startTime)`. -/
def loggerMiddleware (iter : Values → List (GoString × List GoString)) (elapsed : Nat)
    (next : Handler) : Handler := fun r w =>
  let s : State := { w := w }
  let query := flattenQuery (iter r.URL.Query)
  let s := logPrintf "Started %s %s | query: %s" [.str r.Method, .str r.URL.Path, .str query] s
  let served := next r s.w
  let s : State :=
    { w := served.w, logs := s.logs ++ served.logs, fetches := s.fetches ++ served.fetches }
  logPrintf "Completed %s %s | query: %s in %v"
    [.str r.Method, .str r.URL.Path, .str query, .duration elapsed] s

/-- The port resolution of `main`: `flagPort` is the value of the `-port` flag (empty when
not given), `getenv` is `os.Getenv`. -/
def mainPort (flagPort : GoString) (getenv : String → GoString) : GoString :=
  let port := if flagPort = [] then getenv "PORT" else flagPort
  if port = [] then ascii "8080" else port

/-- The request the server builds for a request target: `url.ParseRequestURI` on the
target. -/
def readRequest (method target : GoString) : Except UrlError Request :=
  match ParseRequestURI target with
  | .error e => .error e
  | .ok u => .ok { Method := method, URL := u }

/-! ## Vocabulary of the statements -/

/-- The text of `errorHtml` before its action. -/
def errorBefore : GoString :=
  ascii (String.join [
    "<!DOCTYPE html>\n",
    "\t<html>\n",
    "\t<head>\n",
    "\t<title>Something went wrong</title>\n",
    "\t</head>\n",
    "\t<body>\n",
    "\t\t<h1>Error</h1>\n",
    "\t\t<p>"])

/-- The text of `errorHtml` after its action. -/
def errorAfter : GoString :=
  ascii (String.join [
    "</p>\n",
    "\t</body>\n",
    "\t</html>\n",
    "\t"])

/-- The error page: `errorHtml` with the message in place of its action, escaped as the
template does. -/
def errorPage (message : GoString) : GoString :=
  errorBefore ++ htmlReplacer message ++ errorAfter

/-- The text of `pdfViewerHtml` before the attribute `pdf-document`. -/
def viewerHead : GoString :=
  ascii (String.join [
    "<!DOCTYPE html>\n",
    "    <html>\n",
    "    <head>\n",
    "\t    <title>PDF Viewer</title>\n",
    "\t    <script src=\"https://cdnjs.cloudflare.com/ajax/libs/jquery/3.6.0/jquery.min.js\"></script>\n",
    "\t    <script src=\"https://cdn.jsdelivr.net/gh/dealfonso/pdfjs-viewer@2.0/dist/pdfjs-viewer.min.js\"></script>\n",
    "\t    <link rel=\"stylesheet\" href=\"https://cdn.jsdelivr.net/gh/dealfonso/pdfjs-viewer@2.0/dist/pdfjs-viewer.min.css\">\n",
    "\t\t<style>\n",
    "\t\tbody \x7b\n",
    "\t\tmargin: 0;\n",
    "\t\t\x7d\n",
    "\t\t</style>\n",
    "    </head>\n",
    "    <body>\n",
    "\t    <script src=\"https://cdnjs.cloudflare.com/ajax/libs/pdf.js/3.11.174/pdf.min.js\"></script>\n",
    "\t    <script>\n",
    "\t    var pdfjsLib = window[\x27pdfjs-dist/build/pdf\x27];\n",
    "\t    pdfjsLib.GlobalWorkerOptions.workerSrc = \x27https://cdnjs.cloudflare.com/ajax/libs/pdf.js/3.11.174/pdf.worker.min.js\x27;\n",
    "\t    </script>\n",
    "\t    <div class=\"pdfjs-viewer\" "])

/-- The text of `pdfViewerHtml` after the attribute `pdf-document`. -/
def viewerTail : GoString :=
  ascii (String.join [
    " initial-zoom=\"fit\">\n",
    "\t    </div>\n",
    "    </body>\n",
    "    </html>\n",
    "\t"])

/-- The viewer page whose attribute `pdf-document` has the value `value`. -/
def viewerPage (value : GoString) : GoString :=
  viewerHead ++ ascii "pdf-document=\"" ++ value ++ ascii "\"" ++ viewerTail

/-- An HTML response with status 200. -/
def htmlResponse (body : GoString) : Response :=
  { status := 200, header := [("Content-Type", ascii "text/html")], body := body }

/-- The response `http.Error` sends on a fresh writer: plain text, the message and a line
feed. -/
def plainText (code : Nat) (message : GoString) : Response :=
  { status := code,
    header := [("Content-Type", ascii "text/plain; charset=utf-8"),
               ("X-Content-Type-Options", ascii "nosniff")],
    body := message ++ [10] }

/-- The `url` query parameter as both handlers read it: `r.URL.Query().Get("url")`. -/
def fileURL (r : Request) : GoString := r.URL.Query.Get (ascii "url")

/-- The test both handlers apply to a non-empty `url` value: `url.Parse` succeeds and the
result `IsAbs`. -/
def validTarget (u : GoString) : Bool :=
  match Parse u with
  | .ok parsedURL => parsedURL.IsAbs
  | .error _ => false

/-- A `GET` request for the path `path` with the raw query `rawQuery`. -/
def getRequest (path rawQuery : String) : Request :=
  { Method := ascii "GET", URL := { Path := ascii path, RawQuery := ascii rawQuery } }

/-- The decoding an HTML parser applies to the character references that
`htmlReplacementTable` produces. -/
def htmlUnescape : GoString → GoString
  | [] => []
  -- &#34; &amp; &#39; &#43; &lt; &gt;
  | 38 :: 35 :: 51 :: 52 :: 59 :: s => 34 :: htmlUnescape s
  | 38 :: 97 :: 109 :: 112 :: 59 :: s => 38 :: htmlUnescape s
  | 38 :: 35 :: 51 :: 57 :: 59 :: s => 39 :: htmlUnescape s
  | 38 :: 35 :: 52 :: 51 :: 59 :: s => 43 :: htmlUnescape s
  | 38 :: 108 :: 116 :: 59 :: s => 60 :: htmlUnescape s
  | 38 :: 103 :: 116 :: 59 :: s => 62 :: htmlUnescape s
  | c :: s => c :: htmlUnescape s

/-- A letter of `getScheme`. -/
def isSchemeLetter (c : Nat) : Bool := (97 ≤ c && c ≤ 122) || (65 ≤ c && c ≤ 90)

/-- A scheme name as `getScheme` accepts it: a letter, then letters, digits, `+`, `-`
and `.`. -/
def isSchemeName : GoString → Bool
  | [] => false
  | c :: s =>
    isSchemeLetter c &&
      s.all (fun x => isSchemeLetter x || (48 ≤ x && x ≤ 57) || x == 43 || x == 45 || x == 46)

/-! ## Lemmas: templates, branches of the handlers -/


set_option maxRecDepth 100000 in
theorem templateParse_errorHtml :
    templateParse errorHtml =
      .ok [.text errorBefore, .field (ascii "Message"), .text errorAfter] := by
  decide

set_option maxRecDepth 100000 in
theorem templateParse_pdfViewerHtml :
    templateParse pdfViewerHtml =
      .ok [.text (viewerHead ++ ascii "pdf-document=\"/proxy?url="),
           .field (ascii "FileURL"), .text (ascii "\"" ++ viewerTail)] := by
  decide

theorem execute_errorTempl (message : GoString) (h : Header) (l : List LogEntry)
    (f : List GoString) :
    (execute [.text errorBefore, .field (ascii "Message"), .text errorAfter]
      [(ascii "Message", message)] { w := { header := h }, logs := l, fetches := f }).w.response
      = { status := 200, header := h, body := errorPage message } := by
  simp [execute, executeNodes, ResponseWriter.Write, ResponseWriter.WriteHeader,
    ResponseWriter.response, errorPage, List.lookup]

theorem execute_viewerTempl (target : GoString) (h : Header) (l : List LogEntry)
    (f : List GoString) :
    (execute [.text (viewerHead ++ ascii "pdf-document=\"/proxy?url="),
           .field (ascii "FileURL"), .text (ascii "\"" ++ viewerTail)]
      [(ascii "FileURL", target)] { w := { header := h }, logs := l, fetches := f }).w.response
      = { status := 200, header := h,
          body := viewerPage (ascii "/proxy?url=" ++ htmlReplacer target) } := by
  have e : ascii "pdf-document=\"/proxy?url=" = ascii "pdf-document=\"" ++ ascii "/proxy?url=" := by
    decide
  simp [execute, executeNodes, ResponseWriter.Write, ResponseWriter.WriteHeader,
    ResponseWriter.response, viewerPage, List.lookup, e]

theorem httpError_fresh (message : GoString) (code : Nat) (l : List LogEntry)
    (f : List GoString) :
    (httpError message code { w := {}, logs := l, fetches := f }).w.response
      = plainText code message := by
  simp [httpError, Header.Set, Header.Del, ResponseWriter.Write, ResponseWriter.WriteHeader,
    ResponseWriter.response, plainText]




theorem fileURL_of_absent_or_empty (r : Request)
    (h : r.URL.Query.lookup (ascii "url") = none ∨
      ∃ vs, r.URL.Query.lookup (ascii "url") = some ([] :: vs)) : fileURL r = [] := by
  unfold fileURL Values.Get
  rcases h with h | ⟨vs, h⟩ <;> rw [h]

theorem validTarget_iff (u : GoString) :
    validTarget u = true ↔ ∃ p, Parse u = .ok p ∧ p.IsAbs = true := by
  unfold validTarget
  cases h : Parse u with
  | error e => simp
  | ok p => simp

theorem viewPdfHandler_missing (r : Request) (h : fileURL r = []) :
    viewPdfHandler r {} =
      execute [.text errorBefore, .field (ascii "Message"), .text errorAfter]
        [(ascii "Message", ascii "Missing \x27url\x27 query parameter")]
        (logPrintf "ERROR: Failed to parse pdf url, url is empty" []
          (headerSet "Content-Type" (ascii "text/html") {})) := by
  unfold fileURL at h
  simp [viewPdfHandler, templateParse_errorHtml, h]

theorem proxyFileHandler_missing (httpGet : GoString → Except GoString Upstream) (r : Request)
    (h : fileURL r = []) :
    proxyFileHandler httpGet r {} =
      httpError (ascii "Missing \x27url\x27 query parameter") 400
        (logPrintf "ERROR: Failed to parse pdf url, url is empty" [] {}) := by
  unfold fileURL at h
  simp [proxyFileHandler, h]

theorem viewPdfHandler_invalid (r : Request) (hne : fileURL r ≠ [])
    (h : validTarget (fileURL r) = false) :
    ∃ err, viewPdfHandler r {} =
      execute [.text errorBefore, .field (ascii "Message"), .text errorAfter]
        [(ascii "Message", ascii "Invalid url")]
        (logPrintf "ERROR: Failed to parse pdf url, url is invalid: \x27%s\x27, error: %v"
          [.str (fileURL r), .urlErr err] (headerSet "Content-Type" (ascii "text/html") {})) := by
  unfold validTarget at h
  unfold fileURL at h hne ⊢
  cases hp : Parse (r.URL.Query.Get (ascii "url")) with
  | error e =>
    exact ⟨some e, by simp [viewPdfHandler, templateParse_errorHtml, hne, hp]⟩
  | ok p =>
    rw [hp] at h
    simp only at h
    exact ⟨none, by simp [viewPdfHandler, templateParse_errorHtml, hne, hp, h]⟩

theorem viewPdfHandler_valid (r : Request) (p : URL) (hne : fileURL r ≠ [])
    (hp : Parse (fileURL r) = .ok p) (habs : p.IsAbs = true) :
    viewPdfHandler r {} =
      execute [.text (viewerHead ++ ascii "pdf-document=\"/proxy?url="),
           .field (ascii "FileURL"), .text (ascii "\"" ++ viewerTail)]
        [(ascii "FileURL", p.String)] (headerSet "Content-Type" (ascii "text/html") {}) := by
  unfold fileURL at hne hp
  simp [viewPdfHandler, templateParse_errorHtml, templateParse_pdfViewerHtml, hne, hp, habs]

theorem proxyFileHandler_invalid (httpGet : GoString → Except GoString Upstream) (r : Request)
    (hne : fileURL r ≠ []) (h : validTarget (fileURL r) = false) :
    ∃ err, proxyFileHandler httpGet r {} =
      httpError (ascii "Invalid URL") 400
        (logPrintf "ERROR: Failed to parse pdf url, url is invalid: \x27%s\x27, error: %v"
          [.str (fileURL r), .urlErr err] {}) := by
  unfold validTarget at h
  unfold fileURL at h hne ⊢
  cases hp : Parse (r.URL.Query.Get (ascii "url")) with
  | error e =>
    exact ⟨some e, by simp [proxyFileHandler, hne, hp]⟩
  | ok p =>
    rw [hp] at h
    simp only at h
    exact ⟨none, by simp [proxyFileHandler, hne, hp, h]⟩

theorem proxyFileHandler_valid (httpGet : GoString → Except GoString Upstream) (r : Request)
    (p : URL) (hne : fileURL r ≠ []) (hp : Parse (fileURL r) = .ok p) (habs : p.IsAbs = true) :
    proxyFileHandler httpGet r {} =
      match httpGet (fileURL r) with
      | .error err =>
        httpError (ascii "Failed to fetch the file: " ++ err) 502
          (logPrintf "ERROR: Failed to tetch the file for url \x27%s\x27: %s"
            [.str p.String, .str err] { fetches := [fileURL r] })
      | .ok res =>
        if res.StatusCode ≠ 200 then
          httpError (ascii "Failed to fetch the file: " ++ res.Status) 502
            (logPrintf "ERROR: Failed to fetch the file: %s, status: %s"
              [.str p.String, .str res.Status] { fetches := [fileURL r] })
        else
          ioCopy res
            { w := { header := [("Content-Type", Header.Get res.Header "Content-Type"),
                                ("Content-Disposition", ascii "inline")],
                     wroteHeader := some (200,
                       [("Content-Type", Header.Get res.Header "Content-Type"),
                        ("Content-Disposition", ascii "inline")]) },
              fetches := [fileURL r] } := by
  unfold fileURL at hne hp ⊢
  simp [proxyFileHandler, hne, hp, habs]
  cases httpGet (r.URL.Query.Get (ascii "url")) with
  | error e => simp
  | ok res =>
    simp
    split
    · simp [headerSet, Header.Set, Header.Del, ResponseWriter.WriteHeader]
    · rfl

/-! ## The claims -/

/-- C7: the port `main` listens on is the `-port` flag when that is set, otherwise the
environment variable `PORT` when that is set, otherwise `8080`; it is never empty, and a
flag that is set wins over every value of `PORT`. -/
theorem mainPort_resolution (flagPort : GoString) (getenv : String → GoString) :
    (flagPort ≠ [] → mainPort flagPort getenv = flagPort) ∧
    (flagPort = [] → getenv "PORT" ≠ [] → mainPort flagPort getenv = getenv "PORT") ∧
    (flagPort = [] → getenv "PORT" = [] → mainPort flagPort getenv = ascii "8080") ∧
    mainPort flagPort getenv ≠ [] := by
  unfold mainPort
  refine ⟨fun h => by simp [h], fun h e => by simp [h, e], fun h e => by simp [h, e], ?_⟩
  by_cases h : flagPort = []
  · by_cases e : getenv "PORT" = []
    · simp [h, e]; decide
    · simp [h, e]
  · simp [h]

/-- C9: `loggerMiddleware(next)` leaves the response writer exactly as `next` leaves it
(status, headers, body), performs the fetches of one call of `next` on the same request and
writer and nothing else, and emits the log entries of that one call between a start entry
and a completion entry that carry the same method, path and flattened query string. -/
theorem loggerMiddleware_frame (iter : Values → List (GoString × List GoString))
    (elapsed : Nat) (next : Handler) (r : Request) (w : ResponseWriter) :
    (loggerMiddleware iter elapsed next r w).w = (next r w).w ∧
    (loggerMiddleware iter elapsed next r w).fetches = (next r w).fetches ∧
    (loggerMiddleware iter elapsed next r w).logs =
      [{ format := "Started %s %s | query: %s",
         args := [.str r.Method, .str r.URL.Path, .str (flattenQuery (iter r.URL.Query))] }]
      ++ (next r w).logs ++
      [{ format := "Completed %s %s | query: %s in %v",
         args := [.str r.Method, .str r.URL.Path, .str (flattenQuery (iter r.URL.Query)),
                  .duration elapsed] }] ∧
    serve (loggerMiddleware iter elapsed next) r = serve next r := by
  simp [loggerMiddleware, logPrintf, serve]

/-- C3: when the `url` query parameter is absent or its first value is empty, `viewPdfHandler`
answers 200 with the error page for the message `Missing 'url' query parameter` (HTML-escaped
by the template, so that unescaping gives the message back), and `proxyFileHandler` answers
plain text 400 with that message, fetches nothing, and its status is not 2xx. -/
theorem missing_url_parameter (httpGet : GoString → Except GoString Upstream) (r : Request)
    (h : r.URL.Query.lookup (ascii "url") = none ∨
      ∃ vs, r.URL.Query.lookup (ascii "url") = some ([] :: vs)) :
    serve viewPdfHandler r =
      htmlResponse (errorBefore ++ ascii "Missing &#39;url&#39; query parameter" ++ errorAfter) ∧
    htmlUnescape (ascii "Missing &#39;url&#39; query parameter") =
      ascii "Missing \x27url\x27 query parameter" ∧
    serve (proxyFileHandler httpGet) r =
      plainText 400 (ascii "Missing \x27url\x27 query parameter") ∧
    (proxyFileHandler httpGet r {}).fetches = [] ∧
    ¬ (200 ≤ (serve (proxyFileHandler httpGet) r).status ∧
        (serve (proxyFileHandler httpGet) r).status < 300) := by
  have hf := fileURL_of_absent_or_empty r h
  have hv : serve viewPdfHandler r =
      htmlResponse (errorPage (ascii "Missing \x27url\x27 query parameter")) := by
    unfold serve
    rw [viewPdfHandler_missing r hf]
    simp only [logPrintf, headerSet, Header.Set, Header.Del]
    exact execute_errorTempl _ _ _ _
  have hp : serve (proxyFileHandler httpGet) r =
      plainText 400 (ascii "Missing \x27url\x27 query parameter") := by
    unfold serve
    rw [proxyFileHandler_missing httpGet r hf]
    exact httpError_fresh _ _ _ _
  refine ⟨?_, by decide, hp, ?_, ?_⟩
  · rw [hv]
    have e : errorPage (ascii "Missing \x27url\x27 query parameter") =
        errorBefore ++ ascii "Missing &#39;url&#39; query parameter" ++ errorAfter := by
      unfold errorPage
      have : htmlReplacer (ascii "Missing \x27url\x27 query parameter") =
          ascii "Missing &#39;url&#39; query parameter" := by decide
      rw [this]
    rw [e]
  · rw [proxyFileHandler_missing httpGet r hf]
    simp [httpError, logPrintf]
  · rw [hp]
    simp [plainText]

/-- Witness of C3 on `GET /` without a query. -/
theorem missing_url_parameter_witness :
    (getRequest "/" "").URL.Query.lookup (ascii "url") = none ∧
    serve viewPdfHandler (getRequest "/" "") =
      htmlResponse (errorBefore ++ ascii "Missing &#39;url&#39; query parameter" ++ errorAfter) ∧
    serve (proxyFileHandler (fun _ => .error [])) (getRequest "/" "") =
      plainText 400 (ascii "Missing \x27url\x27 query parameter") :=
  have h := missing_url_parameter (fun _ => .error []) (getRequest "/" "")
    (Or.inl (by decide))
  ⟨by decide, h.1, h.2.2.1⟩

/-- C1: when the `url` value passes validation, the fetch answers 200 with the headers and
body of `res`, and copying the body meets no I/O error, `proxyFileHandler` answers 200 with
the upstream `Content-Type`, `Content-Disposition: inline` and exactly the upstream body; the
one fetch it makes is for the `url` value. -/
theorem proxy_success (httpGet : GoString → Except GoString Upstream) (r : Request)
    (res : Upstream) (hne : fileURL r ≠ []) (hvalid : validTarget (fileURL r) = true)
    (hget : httpGet (fileURL r) = .ok res) (h200 : res.StatusCode = 200)
    (hcopy : res.copyErr = none) :
    serve (proxyFileHandler httpGet) r =
      { status := 200,
        header := [("Content-Type", Header.Get res.Header "Content-Type"),
                   ("Content-Disposition", ascii "inline")],
        body := res.Body } ∧
    (proxyFileHandler httpGet r {}).fetches = [fileURL r] := by
  obtain ⟨p, hp, habs⟩ := (validTarget_iff _).1 hvalid
  unfold serve
  rw [proxyFileHandler_valid httpGet r p hne hp habs, hget]
  simp only [h200, ne_eq, not_true_eq_false, if_false, ioCopy, hcopy]
  by_cases hb : res.Body = []
  · simp [hb, ResponseWriter.response]
  · simp [hb, ResponseWriter.response, ResponseWriter.Write, ResponseWriter.WriteHeader]

/-- Witness of C1: an upstream that answers `200 OK`, `application/pdf` and the bytes
`%PDF` to `GET /proxy?url=https://example.com/file.pdf`. -/
theorem proxy_success_witness :
    serve (proxyFileHandler (fun _ => .ok
        { Status := ascii "200 OK", StatusCode := 200,
          Header := [("Content-Type", ascii "application/pdf")], Body := ascii "%PDF" }))
      (getRequest "/proxy" "url=https://example.com/file.pdf") =
      { status := 200,
        header := [("Content-Type", ascii "application/pdf"),
                   ("Content-Disposition", ascii "inline")],
        body := ascii "%PDF" } :=
  (proxy_success _ (getRequest "/proxy" "url=https://example.com/file.pdf")
    { Status := ascii "200 OK", StatusCode := 200,
      Header := [("Content-Type", ascii "application/pdf")], Body := ascii "%PDF" }
    (by decide) (by decide) rfl rfl rfl).1

/-- C2: when the `url` value passes validation, `proxyFileHandler` answers 502 exactly when
the fetch failed with a transport error or answered with a status other than 200.  On a
transport error the response is the plain text `Failed to fetch the file: ` followed by the
error text, on another status it is that text followed by the upstream status line; either
way the response is determined by that text alone (nothing of the upstream body is in it)
and has no `Content-Disposition` header. -/
theorem proxy_upstream_failure (httpGet : GoString → Except GoString Upstream) (r : Request)
    (hne : fileURL r ≠ []) (hvalid : validTarget (fileURL r) = true) :
    ((serve (proxyFileHandler httpGet) r).status = 502 ↔
      ((∃ err, httpGet (fileURL r) = .error err) ∨
       (∃ res, httpGet (fileURL r) = .ok res ∧ res.StatusCode ≠ 200))) ∧
    (∀ err, httpGet (fileURL r) = .error err →
      serve (proxyFileHandler httpGet) r =
        plainText 502 (ascii "Failed to fetch the file: " ++ err) ∧
      err <:+: (serve (proxyFileHandler httpGet) r).body) ∧
    (∀ res, httpGet (fileURL r) = .ok res → res.StatusCode ≠ 200 →
      serve (proxyFileHandler httpGet) r =
        plainText 502 (ascii "Failed to fetch the file: " ++ res.Status) ∧
      res.Status <:+: (serve (proxyFileHandler httpGet) r).body) ∧
    ((serve (proxyFileHandler httpGet) r).status = 502 →
      (serve (proxyFileHandler httpGet) r).header.lookup "Content-Disposition" = none) := by
  obtain ⟨p, hp, habs⟩ := (validTarget_iff _).1 hvalid
  have herr : ∀ err, httpGet (fileURL r) = .error err →
      serve (proxyFileHandler httpGet) r =
        plainText 502 (ascii "Failed to fetch the file: " ++ err) := by
    intro err hg
    unfold serve
    rw [proxyFileHandler_valid httpGet r p hne hp habs, hg]
    simp only [logPrintf]
    exact httpError_fresh _ _ _ _
  have hstat : ∀ res, httpGet (fileURL r) = .ok res → res.StatusCode ≠ 200 →
      serve (proxyFileHandler httpGet) r =
        plainText 502 (ascii "Failed to fetch the file: " ++ res.Status) := by
    intro res hg hs
    unfold serve
    rw [proxyFileHandler_valid httpGet r p hne hp habs, hg]
    simp only [hs, ne_eq, not_false_eq_true, if_true, logPrintf]
    exact httpError_fresh _ _ _ _
  have hok : ∀ res, httpGet (fileURL r) = .ok res → res.StatusCode = 200 →
      (serve (proxyFileHandler httpGet) r).status = 200 := by
    intro res hg hs
    unfold serve
    rw [proxyFileHandler_valid httpGet r p hne hp habs, hg]
    simp only [hs, ne_eq, not_true_eq_false, if_false, ioCopy]
    cases res.copyErr with
    | none =>
      by_cases hb : res.Body = []
      · simp [hb, ResponseWriter.response]
      · simp [hb, ResponseWriter.response, ResponseWriter.Write, ResponseWriter.WriteHeader]
    | some ne =>
      by_cases hb : List.take ne.1 res.Body = []
      · simp [hb, ResponseWriter.response, logPrintf]
      · simp [hb, ResponseWriter.response, ResponseWriter.Write, ResponseWriter.WriteHeader,
          logPrintf]
  have h502 : (serve (proxyFileHandler httpGet) r).status = 502 ↔
      ((∃ err, httpGet (fileURL r) = .error err) ∨
       (∃ res, httpGet (fileURL r) = .ok res ∧ res.StatusCode ≠ 200)) := by
    cases hg : httpGet (fileURL r) with
    | error err => simp [herr err hg, plainText]
    | ok res =>
      by_cases hs : res.StatusCode = 200
      · simp [hok res hg hs, hs]
      · simp [hstat res hg hs, plainText, hs]
  refine ⟨h502, ?_, ?_, ?_⟩
  · intro err hg
    refine ⟨herr err hg, ?_⟩
    rw [herr err hg]
    exact ⟨ascii "Failed to fetch the file: ", [10], by simp [plainText]⟩
  · intro res hg hs
    refine ⟨hstat res hg hs, ?_⟩
    rw [hstat res hg hs]
    exact ⟨ascii "Failed to fetch the file: ", [10], by simp [plainText]⟩
  · intro h
    rcases h502.1 h with ⟨err, hg⟩ | ⟨res, hg, hs⟩
    · rw [herr err hg]; simp [plainText, List.lookup]
    · rw [hstat res hg hs]; simp [plainText, List.lookup]

/-- Witness of C2: an upstream that answers `404 Not Found`; the body of the 502 response
contains `404`. -/
theorem proxy_upstream_failure_witness :
    serve (proxyFileHandler (fun _ => .ok
        { Status := ascii "404 Not Found", StatusCode := 404, Header := [],
          Body := ascii "gone" }))
      (getRequest "/proxy" "url=https://example.com/file.pdf") =
      plainText 502 (ascii "Failed to fetch the file: 404 Not Found") ∧
    ascii "404" <:+: (plainText 502 (ascii "Failed to fetch the file: 404 Not Found")).body :=
  ⟨((proxy_upstream_failure (fun _ => .ok
        { Status := ascii "404 Not Found", StatusCode := 404, Header := [],
          Body := ascii "gone" })
      (getRequest "/proxy" "url=https://example.com/file.pdf")
      (by decide) (by decide)).2.2.1 _ rfl (by decide)).1,
   by decide⟩

/-- C4: when the `url` value is not empty and fails the validation (`url.Parse` fails or the
result is not absolute), `viewPdfHandler` answers 200 with the error page for `Invalid url`
and `proxyFileHandler` answers plain text 400 `Invalid URL` and fetches nothing; the values
`not a url` and `/relative/path` fail the validation. -/
theorem invalid_url (httpGet : GoString → Except GoString Upstream) (r : Request)
    (hne : fileURL r ≠ []) (hinv : validTarget (fileURL r) = false) :
    serve viewPdfHandler r = htmlResponse (errorBefore ++ ascii "Invalid url" ++ errorAfter) ∧
    serve (proxyFileHandler httpGet) r = plainText 400 (ascii "Invalid URL") ∧
    (proxyFileHandler httpGet r {}).fetches = [] ∧
    validTarget (ascii "not a url") = false ∧
    validTarget (ascii "/relative/path") = false := by
  obtain ⟨e1, hv⟩ := viewPdfHandler_invalid r hne hinv
  obtain ⟨e2, hp⟩ := proxyFileHandler_invalid httpGet r hne hinv
  refine ⟨?_, ?_, ?_, by decide, by decide⟩
  · unfold serve
    rw [hv]
    simp only [logPrintf, headerSet, Header.Set, Header.Del]
    have e : errorBefore ++ ascii "Invalid url" ++ errorAfter = errorPage (ascii "Invalid url") := by
      unfold errorPage
      have : htmlReplacer (ascii "Invalid url") = ascii "Invalid url" := by decide
      rw [this]
    rw [e]
    exact execute_errorTempl _ _ _ _
  · unfold serve
    rw [hp]
    exact httpError_fresh _ _ _ _
  · rw [hp]
    simp [httpError, logPrintf]

/-- Witness of C4 on the `url` value `not a url`. -/
theorem invalid_url_witness :
    fileURL (getRequest "/" "url=not%20a%20url") = ascii "not a url" ∧
    serve viewPdfHandler (getRequest "/" "url=not%20a%20url") =
      htmlResponse (errorBefore ++ ascii "Invalid url" ++ errorAfter) ∧
    serve (proxyFileHandler (fun _ => .error [])) (getRequest "/" "url=not%20a%20url") =
      plainText 400 (ascii "Invalid URL") :=
  have h := invalid_url (fun _ => .error []) (getRequest "/" "url=not%20a%20url")
    (by decide) (by decide)
  ⟨by decide, h.1, h.2.1⟩

theorem htmlReplacer_cons (c : Nat) (s : GoString) :
    htmlReplacer (c :: s) = (htmlReplacementTable c).getD [c] ++ htmlReplacer s := by
  simp [htmlReplacer]

theorem quote_not_mem_htmlReplacer (s : GoString) : 34 ∉ htmlReplacer s := by
  induction s with
  | nil => simp [htmlReplacer]
  | cons c s ih =>
    rw [htmlReplacer_cons]
    intro h
    rcases List.mem_append.1 h with h | h
    · unfold htmlReplacementTable at h
      split_ifs at h with h0 h1 h2 h3 h4 h5 h6
      all_goals first
        | (simp only [Option.getD_some] at h; revert h; decide)
        | (simp only [Option.getD_none, List.mem_singleton] at h; exact h1 h.symm)
    · exact ih h

theorem serve_viewPdfHandler_valid (r : Request) (p : URL) (hne : fileURL r ≠ [])
    (hp : Parse (fileURL r) = .ok p) (habs : p.IsAbs = true) :
    serve viewPdfHandler r =
      htmlResponse (viewerPage (ascii "/proxy?url=" ++ htmlReplacer p.String)) := by
  unfold serve
  rw [viewPdfHandler_valid r p hne hp habs]
  simp only [headerSet, Header.Set, Header.Del]
  exact execute_viewerTempl _ _ _ _

theorem serve_viewPdfHandler_missing (r : Request) (h : fileURL r = []) :
    serve viewPdfHandler r =
      htmlResponse (errorPage (ascii "Missing \x27url\x27 query parameter")) := by
  unfold serve
  rw [viewPdfHandler_missing r h]
  simp only [logPrintf, headerSet, Header.Set, Header.Del]
  exact execute_errorTempl _ _ _ _

theorem serve_viewPdfHandler_invalid (r : Request) (hne : fileURL r ≠ [])
    (hinv : validTarget (fileURL r) = false) :
    serve viewPdfHandler r = htmlResponse (errorPage (ascii "Invalid url")) := by
  obtain ⟨e1, hv⟩ := viewPdfHandler_invalid r hne hinv
  unfold serve
  rw [hv]
  simp only [logPrintf, headerSet, Header.Set, Header.Del]
  exact execute_errorTempl _ _ _ _

/-- C8: the fixed error template parses, so the plain-text 500 fallback is never taken, and
for every request `viewPdfHandler` answers with status 200 and content type `text/html`: the
response is the error page for the missing parameter, the error page for an invalid URL, or
the viewer page. -/
theorem viewPdfHandler_always_html (r : Request) :
    (∃ t, templateParse errorHtml = .ok t) ∧
    (serve viewPdfHandler r).status = 200 ∧
    (serve viewPdfHandler r).header = [("Content-Type", ascii "text/html")] ∧
    (serve viewPdfHandler r =
        htmlResponse (errorPage (ascii "Missing \x27url\x27 query parameter")) ∨
      serve viewPdfHandler r = htmlResponse (errorPage (ascii "Invalid url")) ∨
      ∃ p, Parse (fileURL r) = .ok p ∧ serve viewPdfHandler r =
        htmlResponse (viewerPage (ascii "/proxy?url=" ++ htmlReplacer p.String))) := by
  have key : serve viewPdfHandler r =
        htmlResponse (errorPage (ascii "Missing \x27url\x27 query parameter")) ∨
      serve viewPdfHandler r = htmlResponse (errorPage (ascii "Invalid url")) ∨
      ∃ p, Parse (fileURL r) = .ok p ∧ serve viewPdfHandler r =
        htmlResponse (viewerPage (ascii "/proxy?url=" ++ htmlReplacer p.String)) := by
    by_cases hne : fileURL r = []
    · exact Or.inl (serve_viewPdfHandler_missing r hne)
    · cases hv : validTarget (fileURL r) with
      | false => exact Or.inr (Or.inl (serve_viewPdfHandler_invalid r hne hv))
      | true =>
        obtain ⟨p, hp, habs⟩ := (validTarget_iff _).1 hv
        exact Or.inr (Or.inr ⟨p, hp, serve_viewPdfHandler_valid r p hne hp habs⟩)
  refine ⟨⟨_, templateParse_errorHtml⟩, ?_, ?_, key⟩
  · rcases key with h | h | ⟨p, _, h⟩ <;> rw [h] <;> rfl
  · rcases key with h | h | ⟨p, _, h⟩ <;> rw [h] <;> rfl

/-- C6, as amended: when the `url` value passes validation, `viewPdfHandler` answers 200 with
the HTML viewer page whose attribute `pdf-document` has the value `/proxy?url=` followed by
the re-serialisation `parsedURL.String()` of the parsed URL, escaped by the template's HTML
escaper (which leaves no double quote in it); for the value `https://example.com/file.pdf`
the page contains the literal text `/proxy?url=https://example.com/file.pdf`. -/
theorem viewer_page (r : Request) (p : URL) (hne : fileURL r ≠ [])
    (hp : Parse (fileURL r) = .ok p) (habs : p.IsAbs = true) :
    serve viewPdfHandler r =
      htmlResponse (viewerPage (ascii "/proxy?url=" ++ htmlReplacer p.String)) ∧
    34 ∉ htmlReplacer p.String ∧
    (fileURL r = ascii "https://example.com/file.pdf" →
      ascii "/proxy?url=https://example.com/file.pdf" <:+: (serve viewPdfHandler r).body) := by
  have hs := serve_viewPdfHandler_valid r p hne hp habs
  refine ⟨hs, quote_not_mem_htmlReplacer _, ?_⟩
  intro hu
  rw [hu] at hp
  have hparse : Parse (ascii "https://example.com/file.pdf") =
      .ok { Scheme := ascii "https", Host := ascii "example.com", Path := ascii "/file.pdf" } := by
    decide
  have hpe : p = { Scheme := ascii "https", Host := ascii "example.com",
                   Path := ascii "/file.pdf" } := by
    rw [hparse] at hp
    exact (Except.ok.inj hp).symm
  have hstr : htmlReplacer p.String = ascii "https://example.com/file.pdf" := by
    rw [hpe]; decide
  have happ : ascii "/proxy?url=" ++ ascii "https://example.com/file.pdf" =
      ascii "/proxy?url=https://example.com/file.pdf" := by decide
  rw [hs, hstr, happ]
  exact ⟨viewerHead ++ ascii "pdf-document=\"", ascii "\"" ++ viewerTail,
    by simp [htmlResponse, viewerPage]⟩

/-- Witness of C6 on `GET /?url=https://example.com/file.pdf`. -/
theorem viewer_page_witness :
    serve viewPdfHandler (getRequest "/" "url=https://example.com/file.pdf") =
      htmlResponse (viewerPage (ascii "/proxy?url=" ++
        htmlReplacer (ascii "https://example.com/file.pdf"))) ∧
    ascii "/proxy?url=https://example.com/file.pdf" <:+:
      (serve viewPdfHandler (getRequest "/" "url=https://example.com/file.pdf")).body :=
  have h := viewer_page (getRequest "/" "url=https://example.com/file.pdf")
    { Scheme := ascii "https", Host := ascii "example.com", Path := ascii "/file.pdf" }
    (by decide) (by decide) (by decide)
  ⟨h.1, h.2.2 (by decide)⟩

/-- C6, counterexample: for the `url` value `https://example.com/my file.pdf` (sent as
`GET /?url=https://example.com/my%20file.pdf`) the value passes validation, yet the attribute
is `/proxy?url=https://example.com/my%20file.pdf`: the space is percent-escaped by
`parsedURL.String()`, not by the template, and the page does not contain `/proxy?url=`
followed by the value. -/
theorem viewer_page_counterexample :
    fileURL (getRequest "/" "url=https://example.com/my%20file.pdf") =
      ascii "https://example.com/my file.pdf" ∧
    validTarget (ascii "https://example.com/my file.pdf") = true ∧
    serve viewPdfHandler (getRequest "/" "url=https://example.com/my%20file.pdf") =
      htmlResponse (viewerPage (ascii "/proxy?url=https://example.com/my%20file.pdf")) ∧
    serve viewPdfHandler (getRequest "/" "url=https://example.com/my%20file.pdf") ≠
      htmlResponse (viewerPage (ascii "/proxy?url=" ++
        htmlReplacer (ascii "https://example.com/my file.pdf"))) ∧
    ¬ (ascii "/proxy?url=https://example.com/my file.pdf" <:+:
      (serve viewPdfHandler (getRequest "/" "url=https://example.com/my%20file.pdf")).body) := by
  decide!

/-- C10, at the failing input: for the `url` value `https://example.com/a.pdf?x=1&y=2` the
viewer page embeds `/proxy?url=https://example.com/a.pdf?x=1&amp;y=2`; HTML-unescaped and
requested from the server, it makes `proxyFileHandler` read the `url` value
`https://example.com/a.pdf?x=1`, which is another resource, and fetch that. -/
theorem viewer_relay_round_trip_broken :
    fileURL (getRequest "/" "url=https%3A%2F%2Fexample.com%2Fa.pdf%3Fx%3D1%26y%3D2") =
      ascii "https://example.com/a.pdf?x=1&y=2" ∧
    serve viewPdfHandler (getRequest "/" "url=https%3A%2F%2Fexample.com%2Fa.pdf%3Fx%3D1%26y%3D2") =
      htmlResponse (viewerPage (ascii "/proxy?url=https://example.com/a.pdf?x=1&amp;y=2")) ∧
    htmlUnescape (ascii "/proxy?url=https://example.com/a.pdf?x=1&amp;y=2") =
      ascii "/proxy?url=https://example.com/a.pdf?x=1&y=2" ∧
    readRequest (ascii "GET") (ascii "/proxy?url=https://example.com/a.pdf?x=1&y=2") =
      .ok (getRequest "/proxy" "url=https://example.com/a.pdf?x=1&y=2") ∧
    fileURL (getRequest "/proxy" "url=https://example.com/a.pdf?x=1&y=2") =
      ascii "https://example.com/a.pdf?x=1" ∧
    ascii "https://example.com/a.pdf?x=1" ≠ ascii "https://example.com/a.pdf?x=1&y=2" ∧
    (proxyFileHandler (fun _ => .error [])
      (getRequest "/proxy" "url=https://example.com/a.pdf?x=1&y=2") {}).fetches =
      [ascii "https://example.com/a.pdf?x=1"] := by
  decide!

theorem cut_of_not_contains (sep : Nat) (s : GoString) (h : containsByte s sep = false) :
    cut sep s = (s, [], false) := by
  induction s with
  | nil => rfl
  | cons c s ih =>
    simp only [containsByte, List.any_cons, Bool.or_eq_false_iff, beq_eq_false_iff_ne] at h
    have ih1 := ih (by simpa [containsByte] using h.2)
    simp [cut, h.1, ih1]

theorem getSchemeLoop_append (raw rest : GoString) (s acc : GoString)
    (hs : s.all (fun x => isSchemeLetter x || (48 ≤ x && x ≤ 57) || x == 43 || x == 45 ||
      x == 46) = true) :
    getSchemeLoop raw acc (s ++ 58 :: rest) = (acc.reverse ++ s, rest) := by
  induction s generalizing acc with
  | nil => simp [getSchemeLoop]
  | cons x s ih =>
    simp only [List.all_cons, Bool.and_eq_true] at hs
    have hx := hs.1
    simp only [isSchemeLetter, Bool.or_eq_true, Bool.and_eq_true, decide_eq_true_eq,
      beq_iff_eq] at hx
    simp only [List.cons_append, getSchemeLoop]
    by_cases h1 : (97 ≤ x ∧ x ≤ 122) ∨ (65 ≤ x ∧ x ≤ 90)
    · rw [if_pos h1]
      have := ih (x :: acc) hs.2
      simpa using this
    · rw [if_neg h1]
      have h2 : (48 ≤ x ∧ x ≤ 57) ∨ x = 43 ∨ x = 45 ∨ x = 46 := by omega
      rw [if_pos h2]
      have := ih (x :: acc) hs.2
      simpa using this

theorem getScheme_append (scheme rest : GoString) (h : isSchemeName scheme = true) :
    getScheme (scheme ++ 58 :: rest) = .ok (scheme, rest) := by
  cases scheme with
  | nil => simp [isSchemeName] at h
  | cons c s =>
    simp only [isSchemeName, Bool.and_eq_true] at h
    have hc := h.1
    simp only [isSchemeLetter, Bool.or_eq_true, Bool.and_eq_true, decide_eq_true_eq] at hc
    simp only [List.cons_append, getScheme]
    rw [if_pos hc, getSchemeLoop_append _ _ _ _ h.2]
    simp

theorem isSchemeName_bytes (scheme : GoString) (h : isSchemeName scheme = true) :
    ∀ x ∈ scheme, 43 ≤ x ∧ x ≤ 122 ∧ x ≠ 47 ∧ x ≠ 58 ∧ x ≠ 63 := by
  cases scheme with
  | nil => simp [isSchemeName] at h
  | cons c s =>
    simp only [isSchemeName, Bool.and_eq_true, List.all_eq_true] at h
    intro x hx
    rcases List.mem_cons.1 hx with rfl | hx
    · have hc := h.1
      simp only [isSchemeLetter, Bool.or_eq_true, Bool.and_eq_true, decide_eq_true_eq] at hc
      omega
    · have hc := h.2 x hx
      simp only [isSchemeLetter, Bool.or_eq_true, Bool.and_eq_true, decide_eq_true_eq,
        beq_iff_eq] at hc
      omega

theorem hasPrefix_slash_false_of_prefix (rest t : GoString) (h : hasPrefix rest [47] = false)
    (ht : t <+: rest) : hasPrefix t [47] = false := by
  cases t with
  | nil => rfl
  | cons a t =>
    obtain ⟨u, hu⟩ := ht
    subst hu
    simpa [hasPrefix] using h

theorem cut_fst_prefix (sep : Nat) (s : GoString) : (cut sep s).1 <+: s := by
  induction s with
  | nil => simp [cut]
  | cons c s ih =>
    unfold cut
    split_ifs with h
    · simp
    · simpa using ih

/-- A URL made of a scheme name, a colon and a rest that does not start with a slash, has no
control byte and no `#`, parses as an opaque URL without a host, and is absolute. -/
theorem Parse_opaque (scheme rest : GoString) (hs : isSchemeName scheme = true)
    (hctl : stringContainsCTLByte rest = false) (hfrag : containsByte rest 35 = false)
    (hslash : hasPrefix rest [47] = false) :
    ∃ p, Parse (scheme ++ 58 :: rest) = .ok p ∧ p.Scheme = toLower scheme ∧ p.Host = [] ∧
      p.IsAbs = true := by
  have hb := isSchemeName_bytes scheme hs
  have hne : scheme ≠ [] := by
    intro h; rw [h] at hs; simp [isSchemeName] at hs
  have hcut : cut 35 (scheme ++ 58 :: rest) = (scheme ++ 58 :: rest, [], false) := by
    apply cut_of_not_contains
    simp only [containsByte, List.any_append, List.any_cons, Bool.or_eq_false_iff,
      List.any_eq_false, beq_iff_eq] at hfrag ⊢
    refine ⟨fun x hx => ?_, by decide, ?_⟩
    · have := hb x hx; omega
    · simpa [containsByte] using hfrag
  have hctl2 : stringContainsCTLByte (scheme ++ 58 :: rest) = false := by
    simp only [stringContainsCTLByte, List.any_append, List.any_cons, Bool.or_eq_false_iff,
      List.any_eq_false] at hctl ⊢
    refine ⟨fun x hx => ?_, by decide, ?_⟩
    · have := hb x hx
      simp only [Bool.or_eq_true, decide_eq_true_eq, beq_iff_eq]
      omega
    · simpa [stringContainsCTLByte] using hctl
  have h42 : scheme ++ 58 :: rest ≠ [42] := by
    cases scheme with
    | nil => exact absurd rfl hne
    | cons c s =>
      intro h
      have hc := (hb c (List.mem_cons_self _ _)).1
      simp only [List.cons_append, List.cons.injEq] at h
      omega
  have hlow : toLower scheme ≠ [] := by
    cases scheme with
    | nil => exact absurd rfl hne
    | cons c s => simp [toLower]
  have hrest : hasPrefix (if (hasSuffix rest [63] && countByte rest 63 == 1) = true
      then rest.dropLast else (cut 63 rest).1) [47] = false := by
    apply hasPrefix_slash_false_of_prefix rest _ hslash
    split_ifs
    · exact List.dropLast_prefix rest
    · exact cut_fst_prefix 63 rest
  refine ⟨{ Scheme := toLower scheme,
            Opaque := if (hasSuffix rest [63] && countByte rest 63 == 1) = true
              then rest.dropLast else (cut 63 rest).1,
            ForceQuery := hasSuffix rest [63] && countByte rest 63 == 1,
            RawQuery := if (hasSuffix rest [63] && countByte rest 63 == 1) = true
              then [] else (cut 63 rest).2.1 }, ?_, rfl, rfl, ?_⟩
  · unfold Parse
    simp only [hcut]
    unfold parse
    simp only [hctl2, getScheme_append scheme rest hs, h42, hrest, hlow]
    simp [hlow]
  · simp [URL.IsAbs, hlow]

theorem viewerPage_ne_errorPage (v m : GoString) : viewerPage v ≠ errorPage m := by
  intro h
  have h1 : (viewerPage v).take 17 = (errorPage m).take 17 := by rw [h]
  have e1 : (viewerPage v).take 17 = viewerHead.take 17 := by
    unfold viewerPage
    simp only [List.append_assoc]
    exact List.take_append_of_le_length (by decide!)
  have e2 : (errorPage m).take 17 = errorBefore.take 17 := by
    unfold errorPage
    simp only [List.append_assoc]
    exact List.take_append_of_le_length (by decide!)
  rw [e1, e2] at h1
  revert h1
  decide!

theorem serve_proxyFileHandler_valid_status (httpGet : GoString → Except GoString Upstream)
    (r : Request) (hne : fileURL r ≠ []) (hvalid : validTarget (fileURL r) = true) :
    (serve (proxyFileHandler httpGet) r).status = 502 ∨
      (serve (proxyFileHandler httpGet) r).status = 200 := by
  obtain ⟨p, hp, habs⟩ := (validTarget_iff _).1 hvalid
  unfold serve
  rw [proxyFileHandler_valid httpGet r p hne hp habs]
  cases hg : httpGet (fileURL r) with
  | error err =>
    left
    simp only [logPrintf]
    rw [httpError_fresh]
    rfl
  | ok res =>
    by_cases hs : res.StatusCode = 200
    · right
      simp only [hs, ne_eq, not_true_eq_false, if_false, ioCopy]
      cases res.copyErr with
      | none =>
        by_cases hb : res.Body = []
        · simp [hb, ResponseWriter.response]
        · simp [hb, ResponseWriter.response, ResponseWriter.Write, ResponseWriter.WriteHeader]
      | some ne =>
        by_cases hb : List.take ne.1 res.Body = []
        · simp [hb, ResponseWriter.response, logPrintf]
        · simp [hb, ResponseWriter.response, ResponseWriter.Write, ResponseWriter.WriteHeader,
            logPrintf]
    · left
      simp only [hs, ne_eq, not_false_eq_true, if_true, logPrintf]
      rw [httpError_fresh]
      rfl

/-- C5, as amended: a non-empty `url` value is accepted by both handlers exactly when
`url.Parse` succeeds on it with a non-empty scheme; every other value gets the invalid-URL
response of the handler.  A host is not required and the scheme is not restricted: every
scheme name followed by a colon and a rest without leading slash, control byte and `#`
(as in `mailto:someone` and `http:`) is accepted, with an empty host. -/
theorem target_validity (httpGet : GoString → Except GoString Upstream) (r : Request)
    (hne : fileURL r ≠ []) :
    (validTarget (fileURL r) = true ↔ ∃ p, Parse (fileURL r) = .ok p ∧ p.Scheme ≠ []) ∧
    (serve viewPdfHandler r = htmlResponse (errorPage (ascii "Invalid url")) ↔
      validTarget (fileURL r) = false) ∧
    (serve (proxyFileHandler httpGet) r = plainText 400 (ascii "Invalid URL") ↔
      validTarget (fileURL r) = false) ∧
    (∀ scheme rest : GoString, isSchemeName scheme = true →
      stringContainsCTLByte rest = false → containsByte rest 35 = false →
      hasPrefix rest [47] = false →
      ∃ p, Parse (scheme ++ 58 :: rest) = .ok p ∧ p.Host = [] ∧
        validTarget (scheme ++ 58 :: rest) = true) := by
  refine ⟨?_, ?_, ?_, ?_⟩
  · rw [validTarget_iff]
    simp [URL.IsAbs]
  · constructor
    · intro h
      cases hv : validTarget (fileURL r) with
      | false => rfl
      | true =>
        exfalso
        obtain ⟨p, hp, habs⟩ := (validTarget_iff _).1 hv
        rw [serve_viewPdfHandler_valid r p hne hp habs] at h
        have hb := congrArg Response.body h
        exact viewerPage_ne_errorPage _ _ hb
    · exact serve_viewPdfHandler_invalid r hne
  · constructor
    · intro h
      cases hv : validTarget (fileURL r) with
      | false => rfl
      | true =>
        exfalso
        have hs := serve_proxyFileHandler_valid_status httpGet r hne hv
        rw [h] at hs
        simp [plainText] at hs
    · intro hinv
      obtain ⟨e2, hp⟩ := proxyFileHandler_invalid httpGet r hne hinv
      unfold serve
      rw [hp]
      exact httpError_fresh _ _ _ _
  · intro scheme rest hs hctl hfrag hslash
    obtain ⟨p, hp, _, hh, habs⟩ := Parse_opaque scheme rest hs hctl hfrag hslash
    exact ⟨p, hp, hh, (validTarget_iff _).2 ⟨p, hp, habs⟩⟩

/-- Witness of C5 on `GET /?url=mailto:someone`: the value is accepted, and so is every
`mailto:` followed by `someone`, without a host. -/
theorem target_validity_witness :
    fileURL (getRequest "/" "url=mailto:someone") ≠ [] ∧
    validTarget (fileURL (getRequest "/" "url=mailto:someone")) = true ∧
    ∃ p, Parse (ascii "mailto" ++ 58 :: ascii "someone") = .ok p ∧ p.Host = [] ∧
      validTarget (ascii "mailto" ++ 58 :: ascii "someone") = true :=
  have h := target_validity (fun _ => .error []) (getRequest "/" "url=mailto:someone")
    (by decide)
  ⟨by decide, by decide,
    h.2.2.2 (ascii "mailto") (ascii "someone") (by decide) (by decide) (by decide) (by decide)⟩

/-- C5, counterexample: the `url` values `mailto:someone` and `http:` have a scheme and no
host, and both handlers accept them: `viewPdfHandler` answers with the viewer page and
`proxyFileHandler` goes on to fetch `mailto:someone`. -/
theorem target_validity_counterexample :
    fileURL (getRequest "/" "url=mailto:someone") = ascii "mailto:someone" ∧
    Parse (ascii "mailto:someone") =
      .ok { Scheme := ascii "mailto", Opaque := ascii "someone", Host := [] } ∧
    Parse (ascii "http:") = .ok { Scheme := ascii "http", Host := [] } ∧
    validTarget (ascii "mailto:someone") = true ∧
    validTarget (ascii "http:") = true ∧
    serve viewPdfHandler (getRequest "/" "url=mailto:someone") =
      htmlResponse (viewerPage (ascii "/proxy?url=mailto:someone")) ∧
    serve viewPdfHandler (getRequest "/" "url=mailto:someone") ≠
      htmlResponse (errorPage (ascii "Invalid url")) ∧
    (proxyFileHandler (fun _ => .error (ascii "unsupported protocol scheme"))
      (getRequest "/proxy" "url=mailto:someone") {}).fetches = [ascii "mailto:someone"] ∧
    serve (proxyFileHandler (fun _ => .error (ascii "unsupported protocol scheme")))
      (getRequest "/proxy" "url=mailto:someone") ≠ plainText 400 (ascii "Invalid URL") := by
  decide!

end PdfViewer
